import Mathlib

/-!
Verification of the obsidian-git plugin (`src/main.ts`) against its
natural-language specification.

The source is a single TypeScript file.  The shallow embedding below models:

* `PluginState` — the `PluginState` enum (the spec's `CycleState`);
* `ObsidianGitSettings` — the settings record with its defaults;
* `StatusBar` — the status-bar presenter, including the
  `isDisplayingMessage` suppression flag and the `window.setTimeout`
  reset closures scheduled by `displayMessage` (modelled as the multiset of
  absolute firing times `pendingResets`);
* the git operations `getFilesChanged` / `add` / `commit` / `push` / `pull`
  and the composites `createBackup`, `pullChangesFromRemote` and the
  "commit all changes and push" command callback;
* the interval-setting `onChange` handler of the settings tab, together with
  `enableAutoBackup` / `disableAutoBackup` and a model of the
  `window.setInterval` timer table.

Strings are embedded as `List Char` (JavaScript strings).  Time is a `Nat`
of milliseconds.  The external `simple-git` client (v2 API, as imported by
the source) is modelled by a `GitBehavior` oracle giving each operation's
outcome.  Its semantics, faithful to simple-git v2: every task returns a
promise that rejects on failure; an optional trailing callback additionally
receives the error.  Hence an operation that the source invokes with an
error callback (`add`, `push`, `pull`) both displays the error (the callback
calls `displayError`) and rejects the enclosing `await`; an operation
invoked without a callback (`status`, `commit`) rejects without any display.
A rejection is modelled as `Except.error`; code after a rejected `await`
does not run.

`createBackup` returns `void` in the source; the embedding returns the
number of files committed during the run (the "affected-file count"
observable in its display messages), `0` when nothing was committed.
-/

inductive PluginState
  | idle
  | status
  | pull
  | add
  | commit
  | push
deriving DecidableEq, Repr

structure ObsidianGitSettings where
  commitMessage : List Char
  commitDateFormat : List Char
  autoSaveInterval : Int
  autoPullOnBoot : Bool
  autoPush : Bool
  disablePopups : Bool
  currentBranch : List Char
  remote : List Char
deriving DecidableEq, Repr

/-- Field defaults of `class ObsidianGitSettings`. -/
def defaultSettings : ObsidianGitSettings where
  commitMessage := "vault backup: \x7b\x7bdate\x7d\x7d".toList
  commitDateFormat := "YYYY-MM-DD HH:mm:ss".toList
  autoSaveInterval := 0
  autoPullOnBoot := false
  autoPush := true
  disablePopups := false
  currentBranch := []
  remote := []

/-- Ambient host facilities: the current `Date.now()` clock, and the two
`moment` renderings used by the source (`moment(ts).fromNow()` and
`moment().format(fmt)`), abstracted as functions. -/
structure Env where
  now : Nat
  fromNow : Nat → List Char
  formatDate : List Char → List Char

/-- `StatusBar`: displayed text, the `isDisplayingMessage` suppression flag,
and the absolute times at which `window.setTimeout` closures scheduled by
`displayMessage` will fire (each closure clears the flag). -/
structure StatusBar where
  text : List Char
  isDisplayingMessage : Bool
  pendingResets : List Nat
deriving DecidableEq, Repr

/-- `StatusBar.displayMessage(message, timeout)`: set the flag, show the
message truncated to 100 characters, and — only when the timeout is
positive — schedule a closure resetting the flag after `timeout` ms. -/
def StatusBar.displayMessage (sb : StatusBar) (now : Nat) (message : List Char)
    (timeout : Int) : StatusBar where
  text := "git: ".toList ++ message.take 100
  isDisplayingMessage := true
  pendingResets :=
    if 0 < timeout then sb.pendingResets ++ [now + timeout.toNat] else sb.pendingResets

/-- Advance the wall clock to `now`: every scheduled reset closure whose
time has arrived fires (clearing `isDisplayingMessage`) and is removed. -/
def StatusBar.elapse (sb : StatusBar) (now : Nat) : StatusBar where
  text := sb.text
  isDisplayingMessage := sb.isDisplayingMessage && !(sb.pendingResets.any (fun t => t ≤ now))
  pendingResets := sb.pendingResets.filter (fun t => now < t)

/-- `StatusBar.displayFromNow(timestamp)`: idle text. `lastUpdate` is
`undefined` until the first successful push/pull, modelled as `none`. -/
def StatusBar.displayFromNow (sb : StatusBar) (env : Env) (timestamp : Option Nat) :
    StatusBar :=
  match timestamp with
  | some t => { sb with text := "git: last update ".toList ++ env.fromNow t ++ "..".toList }
  | none => { sb with text := "git: ready".toList }

/-- `StatusBar.displayState(state, lastUpdate)`: a no-op while a transient
message is being displayed, otherwise shows the phase text. -/
def StatusBar.displayState (sb : StatusBar) (env : Env) (state : PluginState)
    (lastUpdate : Option Nat) : StatusBar :=
  if sb.isDisplayingMessage then sb
  else
    match state with
    | PluginState.idle => sb.displayFromNow env lastUpdate
    | PluginState.status => { sb with text := "git: checking repo status..".toList }
    | PluginState.add => { sb with text := "git: adding files to repo..".toList }
    | PluginState.commit => { sb with text := "git: committing changes..".toList }
    | PluginState.push => { sb with text := "git: pushing changes..".toList }
    | PluginState.pull => { sb with text := "git: pulling changes..".toList }

/-- Outcome oracle for the external `simple-git` client: the result of the
status query and, for each fallible operation, `none` for success or
`some errorMessage` for failure. -/
structure GitBehavior where
  statusErr : Option (List Char)
  changedFiles : List (List Char)
  addErr : Option (List Char)
  commitErr : Option (List Char)
  pushErr : Option (List Char)
  pullErr : Option (List Char)
  pullFiles : Nat
deriving DecidableEq, Repr

/-- One invocation of the version-control client. -/
inductive GitCall
  | status
  | add
  | commit (message : List Char)
  | push
  | pull
deriving DecidableEq, Repr

def GitCall.isAdd : GitCall → Bool
  | GitCall.add => true
  | _ => false

def GitCall.isCommit : GitCall → Bool
  | GitCall.commit _ => true
  | _ => false

def GitCall.isPush : GitCall → Bool
  | GitCall.push => true
  | _ => false

/-- The plugin's mutable state: settings, `state`, `lastUpdate`, the status
bar, and the list of `Notice` popups shown so far. -/
structure Plugin where
  settings : ObsidianGitSettings
  state : PluginState
  lastUpdate : Option Nat
  statusBar : StatusBar
  notices : List (List Char)
deriving DecidableEq, Repr

/-- Result of running a plugin method: its value (`Except.error` models a
rejected promise propagating to the caller), the plugin state afterwards,
and the git calls issued, in order. -/
structure Run (α : Type) where
  result : Except Unit α
  plugin : Plugin
  calls : List GitCall
deriving Repr

def Plugin.refreshStatusBar (p : Plugin) (env : Env) : Plugin :=
  { p with statusBar := p.statusBar.displayState env p.state p.lastUpdate }

def Plugin.setState (p : Plugin) (s : PluginState) (env : Env) : Plugin :=
  Plugin.refreshStatusBar { p with state := s } env

def toLower (s : List Char) : List Char := s.map Char.toLower

/-- `displayMessage(message, timeout = 4000)`: lower-cased message to the
status bar, plus a `Notice` popup unless popups are disabled. -/
def Plugin.displayMessage (p : Plugin) (env : Env) (message : List Char)
    (timeout : Int) : Plugin :=
  let p1 : Plugin :=
    { p with statusBar := p.statusBar.displayMessage env.now (toLower message) timeout }
  if p1.settings.disablePopups then p1 else { p1 with notices := p1.notices ++ [message] }

/-- `displayError(message, timeout = 0)`: always a `Notice` popup, plus the
lower-cased message to the status bar. -/
def Plugin.displayError (p : Plugin) (env : Env) (message : List Char)
    (timeout : Int) : Plugin :=
  { p with
    notices := p.notices ++ [message]
    statusBar := p.statusBar.displayMessage env.now (toLower message) timeout }

def numFilesPlaceholder : List Char := "\x7b\x7bnumFiles\x7d\x7d".toList

def datePlaceholder : List Char := "\x7b\x7bdate\x7d\x7d".toList

/-- JavaScript `GetSubstitution` for a string-pattern `replace`: in the
replacement string, `$$` yields a literal dollar, `$&` the matched
substring, a dollar followed by a backquote the portion of the subject
before the match, and a dollar followed by an apostrophe the portion after
it; a string pattern has no capture groups, so every other `$`-sequence
stays literal. -/
def expandRepl (matched before after : List Char) : List Char → List Char
  | [] => []
  | c :: rest =>
    if c = '$' then
      match rest with
      | [] => ['$']
      | d :: rest2 =>
        if d = '$' then '$' :: expandRepl matched before after rest2
        else if d = '&' then matched ++ expandRepl matched before after rest2
        else if d = '\x60' then before ++ expandRepl matched before after rest2
        else if d = '\x27' then after ++ expandRepl matched before after rest2
        else '$' :: d :: expandRepl matched before after rest2
    else c :: expandRepl matched before after rest

/-- Worker for `replaceFirst`: `before` accumulates (reversed) the part of
the subject already passed over, which `GetSubstitution` needs for the
dollar-backquote sequence. -/
def replaceFirstGo (pat repl : List Char) (before : List Char) : List Char → List Char
  | [] => if pat.isEmpty then expandRepl pat before.reverse [] repl else []
  | c :: cs =>
    if pat.isPrefixOf (c :: cs) then
      expandRepl pat before.reverse ((c :: cs).drop pat.length) repl
        ++ (c :: cs).drop pat.length
    else c :: replaceFirstGo pat repl (c :: before) cs

/-- JavaScript `String.prototype.replace` with a string pattern: substitutes
only the first occurrence of `pat`, expanding `$`-sequences in the
replacement against that match (the whole string is returned unchanged when
`pat` does not occur). -/
def replaceFirst (pat repl s : List Char) : List Char := replaceFirstGo pat repl [] s

/-- JavaScript `String.prototype.includes`. -/
def containsSub (pat : List Char) : List Char → Bool
  | [] => pat.isEmpty
  | c :: cs => pat.isPrefixOf (c :: cs) || containsSub pat cs

/-- The pure core of `formatCommitMessage`: substitute the first occurrence
of the `numFiles` placeholder (only when present), then the first occurrence
of the `date` placeholder. -/
def formatCommitMessagePure (template : List Char) (numFiles : Nat)
    (dateStr : List Char) : List Char :=
  let t :=
    if containsSub numFilesPlaceholder template then
      replaceFirst numFilesPlaceholder (Nat.toDigits 10 numFiles) template
    else template
  replaceFirst datePlaceholder dateStr t

/-- `formatCommitMessage(template)`: issues an extra `status` query when the
template mentions the `numFiles` placeholder (whose failure rejects). -/
def Plugin.formatCommitMessage (p : Plugin) (env : Env) (b : GitBehavior)
    (template : List Char) : Except Unit (List Char) × List GitCall :=
  if containsSub numFilesPlaceholder template then
    match b.statusErr with
    | some _ => (Except.error (), [GitCall.status])
    | none =>
      (Except.ok (formatCommitMessagePure template b.changedFiles.length
          (env.formatDate p.settings.commitDateFormat)), [GitCall.status])
  else
    (Except.ok (formatCommitMessagePure template 0
        (env.formatDate p.settings.commitDateFormat)), [])

/-- `getFilesChanged()`: enter the `status` phase and query the client. -/
def Plugin.getFilesChanged (p : Plugin) (env : Env) (b : GitBehavior) :
    Run (List (List Char)) :=
  let p1 := p.setState PluginState.status env
  match b.statusErr with
  | some _ => { result := Except.error (), plugin := p1, calls := [GitCall.status] }
  | none => { result := Except.ok b.changedFiles, plugin := p1, calls := [GitCall.status] }

/-- `add()`: enter the `add` phase; on failure the error callback displays
the message and the rejection still propagates. -/
def Plugin.add (p : Plugin) (env : Env) (b : GitBehavior) : Run Unit :=
  let p1 := p.setState PluginState.add env
  match b.addErr with
  | none => { result := Except.ok (), plugin := p1, calls := [GitCall.add] }
  | some e =>
    { result := Except.error ()
      plugin := p1.displayError env ("Cannot add files: ".toList ++ e) 0
      calls := [GitCall.add] }

/-- `commit()`: enter the `commit` phase, build the message, commit.  No
error callback is passed to `git.commit`, so a failure rejects without any
display. -/
def Plugin.commit (p : Plugin) (env : Env) (b : GitBehavior) : Run Unit :=
  let p1 := p.setState PluginState.commit env
  match p1.formatCommitMessage env b p1.settings.commitMessage with
  | (Except.error _, cs) => { result := Except.error (), plugin := p1, calls := cs }
  | (Except.ok msg, cs) =>
    match b.commitErr with
    | some _ =>
      { result := Except.error (), plugin := p1, calls := cs ++ [GitCall.commit msg] }
    | none => { result := Except.ok (), plugin := p1, calls := cs ++ [GitCall.commit msg] }

/-- `push()`: enter the `push` phase; on failure the error callback displays
the message and the rejection propagates, so the trailing
`this.lastUpdate = Date.now()` only runs on success. -/
def Plugin.push (p : Plugin) (env : Env) (b : GitBehavior) : Run Unit :=
  let p1 := p.setState PluginState.push env
  match b.pushErr with
  | some e =>
    { result := Except.error ()
      plugin := p1.displayError env ("Push failed ".toList ++ e) 0
      calls := [GitCall.push] }
  | none =>
    { result := Except.ok ()
      plugin := { p1 with lastUpdate := some env.now }
      calls := [GitCall.push] }

/-- `pull()`: enter the `pull` phase; on success records `lastUpdate` and
returns the number of files the pull updated. -/
def Plugin.pull (p : Plugin) (env : Env) (b : GitBehavior) : Run Nat :=
  let p1 := p.setState PluginState.pull env
  match b.pullErr with
  | some e =>
    { result := Except.error ()
      plugin := p1.displayError env ("Pull failed ".toList ++ e) 0
      calls := [GitCall.pull] }
  | none =>
    { result := Except.ok b.pullFiles
      plugin := { p1 with lastUpdate := some env.now }
      calls := [GitCall.pull] }

/-- `createBackup()`: status query; early return on an empty change set;
otherwise add, commit, display "Committed N files", optionally push and
display "Pushed N files to remote"; finally back to `idle`.  A rejection at
any `await` skips everything after it, including the final
`setState(idle)`. -/
def Plugin.createBackup (p : Plugin) (env : Env) (b : GitBehavior) : Run Nat :=
  let r1 := p.getFilesChanged env b
  match r1.result with
  | Except.error _ => { result := Except.error (), plugin := r1.plugin, calls := r1.calls }
  | Except.ok files =>
    if files.length = 0 then
      { result := Except.ok 0
        plugin := r1.plugin.setState PluginState.idle env
        calls := r1.calls }
    else
      let r2 := r1.plugin.add env b
      match r2.result with
      | Except.error _ =>
        { result := Except.error (), plugin := r2.plugin, calls := r1.calls ++ r2.calls }
      | Except.ok _ =>
        let r3 := r2.plugin.commit env b
        match r3.result with
        | Except.error _ =>
          { result := Except.error ()
            plugin := r3.plugin
            calls := r1.calls ++ r2.calls ++ r3.calls }
        | Except.ok _ =>
          let p3 := r3.plugin.displayMessage env
            ("Committed ".toList ++ Nat.toDigits 10 files.length ++ " files".toList) 4000
          if p3.settings.autoPush then
            let r4 := p3.push env b
            match r4.result with
            | Except.error _ =>
              { result := Except.error ()
                plugin := r4.plugin
                calls := r1.calls ++ r2.calls ++ r3.calls ++ r4.calls }
            | Except.ok _ =>
              let p4 := r4.plugin.displayMessage env
                ("Pushed ".toList ++ Nat.toDigits 10 files.length ++
                  " files to remote".toList) 4000
              { result := Except.ok files.length
                plugin := p4.setState PluginState.idle env
                calls := r1.calls ++ r2.calls ++ r3.calls ++ r4.calls }
          else
            { result := Except.ok files.length
              plugin := p3.setState PluginState.idle env
              calls := r1.calls ++ r2.calls ++ r3.calls }

/-- `pullChangesFromRemote()`: pull, report, then back to `idle` (skipped
when the pull rejected). -/
def Plugin.pullChangesFromRemote (p : Plugin) (env : Env) (b : GitBehavior) : Run Unit :=
  let r := p.pull env b
  match r.result with
  | Except.error _ => { result := Except.error (), plugin := r.plugin, calls := r.calls }
  | Except.ok n =>
    let p2 :=
      if 0 < n then
        r.plugin.displayMessage env
          ("Pulled new changes. ".toList ++ Nat.toDigits 10 n ++ " files updated".toList) 4000
      else r.plugin.displayMessage env ("Everything is up-to-date".toList) 4000
    { result := Except.ok ()
      plugin := p2.setState PluginState.idle env
      calls := r.calls }

/-- The "Commit *all* changes and push to remote repository" command
callback: change check, early report "No changes detected" on an empty
change set (without resetting the phase), otherwise `createBackup()`. -/
def Plugin.pushCommand (p : Plugin) (env : Env) (b : GitBehavior) : Run Nat :=
  let r1 := p.getFilesChanged env b
  match r1.result with
  | Except.error _ => { result := Except.error (), plugin := r1.plugin, calls := r1.calls }
  | Except.ok files =>
    if files.length = 0 then
      { result := Except.ok 0
        plugin := r1.plugin.displayMessage env ("No changes detected".toList) 4000
        calls := r1.calls }
    else
      let r2 := r1.plugin.createBackup env b
      { result := r2.result, plugin := r2.plugin, calls := r1.calls ++ r2.calls }

/-- Scheduler-side plugin state for the auto-backup timer: the persisted
interval (minutes), the `intervalID` field (`0` models the falsy initial
`undefined`), the `window.setInterval` timer table as `(id, period ms)`
pairs, a fresh-id counter (`window.setInterval` returns a fresh positive
id), and the `Notice` popups shown. -/
structure SchedPlugin where
  autoSaveInterval : Int
  intervalID : Nat
  timers : List (Nat × Int)
  nextID : Nat
  notices : List (List Char)
deriving DecidableEq, Repr

/-- `enableAutoBackup()`: arm a repeating timer with period
`minutes * 60000` ms and remember its id. -/
def SchedPlugin.enableAutoBackup (s : SchedPlugin) : SchedPlugin :=
  let id := s.nextID + 1
  { s with
    intervalID := id
    timers := s.timers ++ [(id, s.autoSaveInterval * 60000)]
    nextID := id }

/-- `disableAutoBackup()`: when `intervalID` is truthy, clear that timer and
return `true`; otherwise return `false`.  (The field itself is not reset.) -/
def SchedPlugin.disableAutoBackup (s : SchedPlugin) : Bool × SchedPlugin :=
  if s.intervalID ≠ 0 then
    (true, { s with timers := s.timers.filter (fun t => t.1 ≠ s.intervalID) })
  else (false, s)

/-- The interval text field's `onChange` handler in
`ObsidianGitSettingsTab.display`.  The input is the result of
`Number(value)`: `none` models `NaN`. -/
def SchedPlugin.onChangeInterval (s : SchedPlugin) (value : Option Int) : SchedPlugin :=
  match value with
  | none => { s with notices := s.notices ++ ["Please specify a valid number.".toList] }
  | some v =>
    let s1 := { s with autoSaveInterval := v }
    if 0 < v then
      let s2 := (s1.disableAutoBackup).2
      let s3 := s2.enableAutoBackup
      { s3 with notices := s3.notices ++ ["Automatic backup enabled!".toList] }
    else if s1.intervalID ≠ 0 then
      let r := s1.disableAutoBackup
      if r.1 then
        { r.2 with notices := r.2.notices ++ ["Automatic backup disabled!".toList] }
      else r.2
    else s1

/-- Number of firings of a `setInterval` timer with the given period over
`elapsed` ms (periods are positive in every reachable state). -/
def periodInvocations (periodMs : Int) (elapsed : Nat) : Nat :=
  if 0 < periodMs then elapsed / periodMs.toNat else elapsed

/-- Total backup-cycle invocations produced by the active timers over
`elapsed` ms. -/
def cycleInvocations (timers : List (Nat × Int)) (elapsed : Nat) : Nat :=
  (timers.map (fun t => periodInvocations t.2 elapsed)).sum

/-- A scheduler state reachable through `onload` / `onChangeInterval`:
either no active timer, or exactly the one named by `intervalID`. -/
def SchedWF (s : SchedPlugin) : Prop :=
  s.timers = [] ∨ (s.intervalID ≠ 0 ∧ ∃ p, s.timers = [(s.intervalID, p)])

/-- Concrete fixtures used by witnesses and counterexamples. -/
def cexEnv : Env where
  now := 1000
  fromNow := fun _ => "a minute ago".toList
  formatDate := fun _ => "2024-01-01 00:00:00".toList

def cexStatusBar : StatusBar where
  text := []
  isDisplayingMessage := false
  pendingResets := []

def cexPlugin : Plugin where
  settings := defaultSettings
  state := PluginState.idle
  lastUpdate := none
  statusBar := cexStatusBar
  notices := []

/-- Oracle where every operation succeeds and two files are changed. -/
def okBehavior : GitBehavior where
  statusErr := none
  changedFiles := ["fileA".toList, "fileB".toList]
  addErr := none
  commitErr := none
  pushErr := none
  pullErr := none
  pullFiles := 0

/-- Oracle where only the commit fails. -/
def commitFailBehavior : GitBehavior :=
  { okBehavior with commitErr := some ("boom".toList) }

/-- Oracle where only the push fails. -/
def pushFailBehavior : GitBehavior :=
  { okBehavior with pushErr := some ("network error".toList) }

/-- Oracle where only the add fails. -/
def addFailBehavior : GitBehavior :=
  { okBehavior with addErr := some ("boom".toList) }

/-- Oracle where only the pull fails. -/
def pullFailBehavior : GitBehavior :=
  { okBehavior with pullErr := some ("offline".toList) }

section StringLemmas

lemma isPrefixOf_eq_decide (p s : List Char) :
    p.isPrefixOf s = decide (p <+: s) := by
  by_cases h : p <+: s
  · simp [List.isPrefixOf_iff_prefix.mpr h, h]
  · have h1 : p.isPrefixOf s = false :=
      Bool.eq_false_iff.mpr (fun hc => h (List.isPrefixOf_iff_prefix.mp hc))
    simp [h1, h]

lemma containsSub_of_isPrefixOf {p s : List Char} (h : p.isPrefixOf s = true) :
    containsSub p s = true := by
  cases s with
  | nil =>
    have : p = [] := List.prefix_nil.mp (List.isPrefixOf_iff_prefix.mp h)
    simp [containsSub, this]
  | cons c cs => simp [containsSub, h]

lemma containsSub_append_self (p a b : List Char) :
    containsSub p (a ++ p ++ b) = true := by
  induction a with
  | nil =>
    apply containsSub_of_isPrefixOf
    rw [isPrefixOf_eq_decide]
    have : p <+: ([] : List Char) ++ p ++ b := by
      simp
    simp [this]
  | cons c a ih =>
    have : containsSub p (c :: (a ++ p ++ b)) = true := by
      simp only [containsSub, Bool.or_eq_true]
      exact Or.inr ih
    exact this

lemma replaceFirstGo_of_not_contains (p r : List Char) :
    ∀ (s bf : List Char), containsSub p s = false → replaceFirstGo p r bf s = s
  | [], bf, h => by
      simp only [containsSub, List.isEmpty_iff] at h
      simp [replaceFirstGo, h]
  | c :: cs, bf, h => by
      simp only [containsSub, Bool.or_eq_false_iff] at h
      simp [replaceFirstGo, h.1,
        replaceFirstGo_of_not_contains p r cs (c :: bf) h.2]

lemma replaceFirst_of_not_contains {p s : List Char} (r : List Char)
    (h : containsSub p s = false) : replaceFirst p r s = s :=
  replaceFirstGo_of_not_contains p r s [] h

lemma not_isPrefixOf_middle {p a b : List Char} (hp : p ≠ [])
    (h : containsSub p (a ++ p.dropLast) = false) (ha : a ≠ []) :
    p.isPrefixOf (a ++ p ++ b) = false := by
  by_contra hc
  rw [Bool.not_eq_false] at hc
  have hpre : p <+: (a ++ p ++ b) := List.isPrefixOf_iff_prefix.mp hc
  have hpre2 : a ++ p.dropLast <+: (a ++ p ++ b) := by
    obtain ⟨t, ht⟩ := (List.dropLast_prefix p).trans (List.prefix_append p b)
    exact ⟨t, by rw [List.append_assoc a p.dropLast t, ht, List.append_assoc]⟩
  have hlen : p.length ≤ (a ++ p.dropLast).length := by
    have h1 : 1 ≤ a.length := by
      cases a with
      | nil => exact absurd rfl ha
      | cons x xs => simp
    have h2 : 1 ≤ p.length := by
      cases p with
      | nil => exact absurd rfl hp
      | cons x xs => simp
    simp only [List.length_append, List.length_dropLast]
    omega
  have : p <+: a ++ p.dropLast :=
    List.prefix_of_prefix_length_le hpre hpre2 hlen
  have : containsSub p (a ++ p.dropLast) = true :=
    containsSub_of_isPrefixOf (by simpa [isPrefixOf_eq_decide] using this)
  rw [this] at h
  exact Bool.true_eq_false.mp h

lemma replaceFirstGo_first_occurrence (p r : List Char) (hp : p ≠ []) :
    ∀ (a b bf : List Char), containsSub p (a ++ p.dropLast) = false →
      replaceFirstGo p r bf (a ++ p ++ b)
        = a ++ (expandRepl p (bf.reverse ++ a) b r ++ b)
  | [], b, bf, h => by
      cases hpc : p with
      | nil => exact absurd hpc hp
      | cons c cs =>
        subst hpc
        have hpre : (c :: cs).isPrefixOf (c :: cs ++ b) = true := by
          rw [isPrefixOf_eq_decide]
          simp
        simp [replaceFirstGo, hpre]
  | c :: a, b, bf, h => by
      have hnp : p.isPrefixOf (c :: (a ++ p ++ b)) = false :=
        not_isPrefixOf_middle (a := c :: a) (b := b) hp h (by simp)
      have h2 : containsSub p (a ++ p.dropLast) = false := by
        have h' : containsSub p (c :: (a ++ p.dropLast)) = false := h
        simp only [containsSub, Bool.or_eq_false_iff] at h'
        exact h'.2
      calc replaceFirstGo p r bf ((c :: a) ++ p ++ b)
          = replaceFirstGo p r bf (c :: (a ++ p ++ b)) := rfl
        _ = c :: replaceFirstGo p r (c :: bf) (a ++ p ++ b) := by
            simp only [replaceFirstGo]
            rw [hnp]
            simp
        _ = c :: (a ++ (expandRepl p ((c :: bf).reverse ++ a) b r ++ b)) := by
            rw [replaceFirstGo_first_occurrence p r hp a b (c :: bf) h2]
        _ = (c :: a) ++ (expandRepl p (bf.reverse ++ (c :: a)) b r ++ b) := by
            simp

lemma replaceFirst_first_occurrence {p : List Char} (r : List Char) {a : List Char}
    (b : List Char) (hp : p ≠ []) (h : containsSub p (a ++ p.dropLast) = false) :
    replaceFirst p r (a ++ p ++ b) = a ++ (expandRepl p a b r ++ b) := by
  have h1 := replaceFirstGo_first_occurrence p r hp a b [] h
  simp only [List.reverse_nil, List.nil_append] at h1
  exact h1

/-- Replacement strings without a dollar sign. -/
def noDollar (s : List Char) : Bool := s.all (fun c => !(c = '$'))

lemma expandRepl_of_noDollar (m bf af : List Char) :
    ∀ r : List Char, noDollar r = true → expandRepl m bf af r = r
  | [], _ => rfl
  | c :: rest, h => by
      simp only [noDollar, List.all_cons, Bool.and_eq_true, Bool.not_eq_true',
        decide_eq_false_iff_not] at h
      have hr : noDollar rest = true := by
        simp only [noDollar]
        exact h.2
      rw [expandRepl.eq_def]
      simp [h.1, expandRepl_of_noDollar m bf af rest hr]

lemma noDollar_digitChar (n : Nat) : ¬ Nat.digitChar n = '$' := by
  by_cases hlt : n < 16
  · interval_cases n <;> decide
  · have h0 : ¬ n = 0 := by omega
    have h1 : ¬ n = 1 := by omega
    have h2 : ¬ n = 2 := by omega
    have h3 : ¬ n = 3 := by omega
    have h4 : ¬ n = 4 := by omega
    have h5 : ¬ n = 5 := by omega
    have h6 : ¬ n = 6 := by omega
    have h7 : ¬ n = 7 := by omega
    have h8 : ¬ n = 8 := by omega
    have h9 : ¬ n = 9 := by omega
    have h10 : ¬ n = 10 := by omega
    have h11 : ¬ n = 11 := by omega
    have h12 : ¬ n = 12 := by omega
    have h13 : ¬ n = 13 := by omega
    have h14 : ¬ n = 14 := by omega
    have h15 : ¬ n = 15 := by omega
    simp only [Nat.digitChar, h0, h1, h2, h3, h4, h5, h6, h7, h8, h9, h10, h11,
      h12, h13, h14, h15, if_false]
    decide

lemma noDollar_toDigitsCore :
    ∀ (fuel n : Nat) (acc : List Char), noDollar acc = true →
      noDollar (Nat.toDigitsCore 10 fuel n acc) = true
  | 0, n, acc, hacc => hacc
  | fuel + 1, n, acc, hacc => by
      have hd : noDollar (Nat.digitChar (n % 10) :: acc) = true := by
        simp only [noDollar, List.all_cons, Bool.and_eq_true]
        constructor
        · simp only [Bool.not_eq_true', decide_eq_false_iff_not]
          exact noDollar_digitChar (n % 10)
        · simpa [noDollar] using hacc
      rw [Nat.toDigitsCore.eq_def]
      by_cases h0 : n / 10 = 0
      · simpa [h0] using hd
      · simpa [h0] using noDollar_toDigitsCore fuel (n / 10) _ hd

lemma noDollar_toDigits (n : Nat) : noDollar (Nat.toDigits 10 n) = true :=
  noDollar_toDigitsCore (n + 1) n [] rfl

lemma containsSub_eq_false_of_lt (p : List Char) (hp : p ≠ []) :
    ∀ s : List Char, s.length < p.length → containsSub p s = false
  | [], _ => by simpa [containsSub, List.isEmpty_iff] using hp
  | c :: cs, h => by
      simp only [containsSub, Bool.or_eq_false_iff]
      refine ⟨?_, containsSub_eq_false_of_lt p hp cs (by simp at h ⊢; omega)⟩
      rw [Bool.eq_false_iff]
      intro hc
      have hle := (List.isPrefixOf_iff_prefix.mp hc).length_le
      simp at hle h
      omega

/-- Every string containing a non-empty pattern splits at the pattern's
first occurrence: `s = a ++ p ++ b` with no occurrence of `p` starting
before position `a.length`. -/
lemma exists_first_occurrence (p : List Char) (hp : p ≠ []) :
    ∀ s : List Char, containsSub p s = true →
      ∃ a b, s = a ++ p ++ b ∧ containsSub p (a ++ p.dropLast) = false
  | [], h => by
      simp only [containsSub, List.isEmpty_iff] at h
      exact absurd h hp
  | c :: cs, h => by
      simp only [containsSub, Bool.or_eq_true] at h
      by_cases hpre : p.isPrefixOf (c :: cs) = true
      · refine ⟨[], (c :: cs).drop p.length, ?_, ?_⟩
        · obtain ⟨t, ht⟩ := List.isPrefixOf_iff_prefix.mp hpre
          rw [← ht]
          simp
        · have hlt : p.dropLast.length < p.length := by
            cases p with
            | nil => exact absurd rfl hp
            | cons x xs => simp
          simpa using containsSub_eq_false_of_lt p hp p.dropLast hlt
      · have hcs : containsSub p cs = true := by
          rcases h with h1 | h2
          · exact absurd h1 hpre
          · exact h2
        obtain ⟨a, b, hab, hfirst⟩ := exists_first_occurrence p hp cs hcs
        refine ⟨c :: a, b, by simp [hab], ?_⟩
        simp only [List.cons_append, containsSub, Bool.or_eq_false_iff]
        refine ⟨?_, hfirst⟩
        rw [Bool.eq_false_iff]
        intro hc2
        apply hpre
        have hpr : p <+: c :: (a ++ p.dropLast) := List.isPrefixOf_iff_prefix.mp hc2
        have hsub : (c :: (a ++ p.dropLast)) <+: (c :: cs) := by
          rw [hab]
          have hx : a ++ p.dropLast <+: a ++ p ++ b := by
            obtain ⟨t, ht⟩ := (List.dropLast_prefix p).trans (List.prefix_append p b)
            exact ⟨t, by rw [List.append_assoc a p.dropLast t, ht, List.append_assoc]⟩
          obtain ⟨t, ht⟩ := hx
          exact ⟨t, by rw [List.cons_append, ht]⟩
        exact List.isPrefixOf_iff_prefix.mpr (hpr.trans hsub)

end StringLemmas

section SchedulerLemmas

lemma disable_timers_of_wf (s : SchedPlugin) (hwf : SchedWF s) :
    ((s.disableAutoBackup).2).timers = [] := by
  rcases hwf with h | ⟨hne, p, h⟩
  · by_cases hid : s.intervalID ≠ 0 <;> simp [SchedPlugin.disableAutoBackup, hid, h]
  · simp [SchedPlugin.disableAutoBackup, hne, h]

lemma disable_fields (s : SchedPlugin) :
    ((s.disableAutoBackup).2).autoSaveInterval = s.autoSaveInterval
    ∧ ((s.disableAutoBackup).2).intervalID = s.intervalID
    ∧ ((s.disableAutoBackup).2).nextID = s.nextID
    ∧ ((s.disableAutoBackup).2).notices = s.notices := by
  by_cases hid : s.intervalID = 0 <;> simp [SchedPlugin.disableAutoBackup, hid]

lemma wf_update_interval (s : SchedPlugin) (hwf : SchedWF s) (v : Int) :
    SchedWF ({ s with autoSaveInterval := v } : SchedPlugin) := by
  rcases hwf with h | ⟨hne, p, h⟩
  · exact Or.inl h
  · exact Or.inr ⟨hne, p, h⟩

lemma onChange_nonpos_timers (s : SchedPlugin) (hwf : SchedWF s) (v : Int) (hv : v ≤ 0) :
    (s.onChangeInterval (some v)).timers = [] := by
  have hnv : ¬ 0 < v := by omega
  have hd := disable_timers_of_wf _ (wf_update_interval s hwf v)
  by_cases hid : s.intervalID = 0
  · have ht : s.timers = [] := by
      rcases hwf with h | ⟨hne, _, _⟩
      · exact h
      · exact absurd hid hne
    simp [SchedPlugin.onChangeInterval, hnv, hid, ht]
  · rcases hwf with h | ⟨hne, p, h⟩
    · simp [SchedPlugin.onChangeInterval, SchedPlugin.disableAutoBackup, hnv, hid, h]
    · simp [SchedPlugin.onChangeInterval, SchedPlugin.disableAutoBackup, hnv, hid, h]

lemma onChange_pos_timers (s : SchedPlugin) (hwf : SchedWF s) (v : Int) (hv : 0 < v) :
    (s.onChangeInterval (some v)).timers
      = [((s.onChangeInterval (some v)).intervalID, v * 60000)]
    ∧ (s.onChangeInterval (some v)).intervalID ≠ 0 := by
  have hd := disable_timers_of_wf _ (wf_update_interval s hwf v)
  have hint := (disable_fields ({ s with autoSaveInterval := v } : SchedPlugin)).1
  simp only [SchedPlugin.onChangeInterval, hv, if_true]
  refine ⟨?_, ?_⟩
  · simp [SchedPlugin.enableAutoBackup, hd, hint]
  · simp [SchedPlugin.enableAutoBackup]

lemma onChange_pos_wf (s : SchedPlugin) (hwf : SchedWF s) (v : Int) (hv : 0 < v) :
    SchedWF (s.onChangeInterval (some v)) := by
  have h := onChange_pos_timers s hwf v hv
  exact Or.inr ⟨h.2, v * 60000, h.1⟩

end SchedulerLemmas

/-- Claim C9: a non-numeric interval input (`Number(value)` is `NaN`) is
rejected at the configuration boundary — the prior interval value, the
`intervalID` field and the timer table are all unchanged, and the only
effect is the validation notice. -/
theorem c9_invalid_interval_rejected (s : SchedPlugin) :
    (s.onChangeInterval none).autoSaveInterval = s.autoSaveInterval
    ∧ (s.onChangeInterval none).timers = s.timers
    ∧ (s.onChangeInterval none).intervalID = s.intervalID
    ∧ (s.onChangeInterval none).notices
        = s.notices ++ ["Please specify a valid number.".toList] :=
  ⟨rfl, rfl, rfl, rfl⟩

/-- Claim C6: `push()` and `pull()` record the `lastUpdate` timestamp
exactly when the operation succeeds; on failure the rejection skips the
assignment and the timestamp is unchanged. -/
theorem c6_lastUpdate_exactly_on_success (p : Plugin) (env : Env) (b : GitBehavior) :
    (p.push env b).plugin.lastUpdate
        = (if b.pushErr = none then some env.now else p.lastUpdate)
    ∧ (p.pull env b).plugin.lastUpdate
        = (if b.pullErr = none then some env.now else p.lastUpdate) := by
  constructor
  · cases h : b.pushErr <;>
      simp [Plugin.push, h, Plugin.displayError, Plugin.setState, Plugin.refreshStatusBar]
  · cases h : b.pullErr <;>
      simp [Plugin.pull, h, Plugin.displayError, Plugin.setState, Plugin.refreshStatusBar]

/-- Claim C5: an interval value ≤ 0 leaves no active timer; a positive
value arms one timer whose period is the minute value converted once to
milliseconds; and setting the interval to 5 and then to 0 leaves no timer,
hence zero cycle invocations over any elapsed time. -/
theorem c5_interval_zero_disables (s : SchedPlugin) (hwf : SchedWF s) :
    (∀ v : Int, v ≤ 0 → (s.onChangeInterval (some v)).timers = [])
    ∧ (∀ v : Int, 0 < v →
        (s.onChangeInterval (some v)).timers
          = [((s.onChangeInterval (some v)).intervalID, v * 60000)])
    ∧ ((s.onChangeInterval (some 5)).onChangeInterval (some 0)).timers = []
    ∧ (∀ t, cycleInvocations
        (((s.onChangeInterval (some 5)).onChangeInterval (some 0)).timers) t = 0) := by
  have h5 : SchedWF (s.onChangeInterval (some 5)) := onChange_pos_wf s hwf 5 (by omega)
  have hrt : ((s.onChangeInterval (some 5)).onChangeInterval (some 0)).timers = [] :=
    onChange_nonpos_timers _ h5 0 (by omega)
  refine ⟨fun v hv => onChange_nonpos_timers s hwf v hv,
         fun v hv => (onChange_pos_timers s hwf v hv).1, hrt, fun t => ?_⟩
  rw [hrt]
  rfl

/-- Witness for C5 at a freshly initialised scheduler state. -/
theorem c5_witness :
    (((⟨0, 0, [], 0, []⟩ : SchedPlugin).onChangeInterval (some 5)).onChangeInterval
        (some 0)).timers = [] :=
  (c5_interval_zero_disables ⟨0, 0, [], 0, []⟩ (Or.inl rfl)).2.2.1

/-- Claim C7: for every template string, the commit-message formatter
substitutes each recognized placeholder at most once — only at its first
occurrence (any further occurrence survives literally in the output) — and
every unrecognized placeholder passes through unchanged.  The four
substitution conjuncts cover the four placeholder configurations (neither
placeholder, date only, numFiles only, both), each at the placeholder\'s
first occurrence; the last conjunct shows every string containing a pattern
has such a first-occurrence decomposition, so the case analysis is
exhaustive.  Replacement strings are expanded per JavaScript
`GetSubstitution` (`expandRepl`); the numeric count expands to itself since
digits contain no dollar sign. -/
theorem c7_first_occurrence_replacement :
    (∀ (t : List Char) (n : Nat) (d : List Char),
      containsSub numFilesPlaceholder t = false →
      containsSub datePlaceholder t = false →
      formatCommitMessagePure t n d = t)
    ∧ (∀ (a b : List Char) (n : Nat) (d : List Char),
        containsSub numFilesPlaceholder (a ++ datePlaceholder ++ b) = false →
        containsSub datePlaceholder (a ++ datePlaceholder.dropLast) = false →
        formatCommitMessagePure (a ++ datePlaceholder ++ b) n d
          = a ++ (expandRepl datePlaceholder a b d ++ b))
    ∧ (∀ (a b : List Char) (n : Nat) (d : List Char),
        containsSub numFilesPlaceholder (a ++ numFilesPlaceholder.dropLast) = false →
        containsSub datePlaceholder (a ++ Nat.toDigits 10 n ++ b) = false →
        formatCommitMessagePure (a ++ numFilesPlaceholder ++ b) n d
          = a ++ Nat.toDigits 10 n ++ b)
    ∧ (∀ (a b a2 b2 : List Char) (n : Nat) (d : List Char),
        containsSub numFilesPlaceholder (a ++ numFilesPlaceholder.dropLast) = false →
        a ++ Nat.toDigits 10 n ++ b = a2 ++ datePlaceholder ++ b2 →
        containsSub datePlaceholder (a2 ++ datePlaceholder.dropLast) = false →
        formatCommitMessagePure (a ++ numFilesPlaceholder ++ b) n d
          = a2 ++ (expandRepl datePlaceholder a2 b2 d ++ b2))
    ∧ (∀ (pat t : List Char), pat ≠ [] → containsSub pat t = true →
        ∃ a b, t = a ++ pat ++ b ∧ containsSub pat (a ++ pat.dropLast) = false) := by
  have hnf : numFilesPlaceholder ≠ [] := by decide
  have hdp : datePlaceholder ≠ [] := by decide
  refine ⟨?_, ?_, ?_, ?_, fun pat t hp ht => exists_first_occurrence pat hp t ht⟩
  · intro t n d h1 h2
    rw [formatCommitMessagePure]
    simp only [h1, if_false]
    exact replaceFirst_of_not_contains d h2
  · intro a b n d h1 h2
    rw [formatCommitMessagePure]
    simp only [h1, if_false]
    exact replaceFirst_first_occurrence d b hdp h2
  · intro a b n d h1 h2
    rw [formatCommitMessagePure]
    simp only [containsSub_append_self, if_true]
    rw [replaceFirst_first_occurrence (Nat.toDigits 10 n) b hnf h1,
      expandRepl_of_noDollar numFilesPlaceholder a b (Nat.toDigits 10 n)
        (noDollar_toDigits n),
      ← List.append_assoc]
    exact replaceFirst_of_not_contains d h2
  · intro a b a2 b2 n d h1 h2 h3
    rw [formatCommitMessagePure]
    simp only [containsSub_append_self, if_true]
    rw [replaceFirst_first_occurrence (Nat.toDigits 10 n) b hnf h1,
      expandRepl_of_noDollar numFilesPlaceholder a b (Nat.toDigits 10 n)
        (noDollar_toDigits n),
      ← List.append_assoc, h2]
    exact replaceFirst_first_occurrence d b2 hdp h3

/-- Witness for C7: an unrecognized placeholder passes through unchanged,
and a template containing both placeholders has each substituted at its
first occurrence. -/
theorem c7_witness :
    formatCommitMessagePure ("\x7b\x7bfoo\x7d\x7d".toList) 3 ("D".toList)
      = "\x7b\x7bfoo\x7d\x7d".toList
    ∧ formatCommitMessagePure
        ("n=".toList ++ numFilesPlaceholder ++ (" d=".toList ++ datePlaceholder))
        3 ("D".toList)
      = "n=3 d=D".toList :=
  ⟨c7_first_occurrence_replacement.1 _ 3 _ (by decide) (by decide),
   c7_first_occurrence_replacement.2.2.2.1 ("n=".toList)
     (" d=".toList ++ datePlaceholder) ("n=3 d=".toList) [] 3 ("D".toList)
     (by decide) (by decide) (by decide)⟩

/-- Claim C1: on a non-empty change set, one run of `createBackup` in which
the client operations succeed calls `add` exactly once, `commit` exactly
once, and `push` exactly once if and only if the `autoPush` setting is
enabled. -/
theorem c1_nonempty_backup_calls (p : Plugin) (env : Env) (b : GitBehavior)
    (hne : b.changedFiles ≠ [])
    (hs : b.statusErr = none) (ha : b.addErr = none)
    (hc : b.commitErr = none) (hp : b.pushErr = none) :
    ((p.createBackup env b).calls.countP GitCall.isAdd) = 1
    ∧ ((p.createBackup env b).calls.countP GitCall.isCommit) = 1
    ∧ (((p.createBackup env b).calls.countP GitCall.isPush) = 1
        ↔ p.settings.autoPush = true) := by
  have hlen : ¬ b.changedFiles.length = 0 := by
    simpa [List.length_eq_zero] using hne
  by_cases hcs : containsSub numFilesPlaceholder p.settings.commitMessage <;>
    by_cases hap : p.settings.autoPush <;>
      by_cases hdp : p.settings.disablePopups <;>
        simp [Plugin.createBackup, Plugin.getFilesChanged, Plugin.add, Plugin.commit,
          Plugin.push, Plugin.formatCommitMessage, Plugin.displayMessage, Plugin.displayError,
          Plugin.setState, Plugin.refreshStatusBar, hs, ha, hc, hp, hlen, hcs, hap, hdp,
          List.countP_append, List.countP_cons, GitCall.isAdd, GitCall.isCommit,
          GitCall.isPush]

/-- Witness for C1 at a concrete plugin and a two-file change set. -/
theorem c1_witness :
    ((cexPlugin.createBackup cexEnv okBehavior).calls.countP GitCall.isAdd) = 1
    ∧ ((cexPlugin.createBackup cexEnv okBehavior).calls.countP GitCall.isCommit) = 1
    ∧ (((cexPlugin.createBackup cexEnv okBehavior).calls.countP GitCall.isPush) = 1
        ↔ cexPlugin.settings.autoPush = true) :=
  c1_nonempty_backup_calls cexPlugin cexEnv okBehavior (by decide) rfl rfl rfl rfl

/-- Claim C2: on an empty change set, both `createBackup` and the "commit
all changes and push" command issue only the status query (no add, commit or
push), report a zero affected-file count, and leave the settings,
`lastUpdate` and (for `createBackup`) the notices unchanged, with the cycle
state back at `idle`. -/
theorem c2_empty_changeset_no_calls (p : Plugin) (env : Env) (b : GitBehavior)
    (h : b.changedFiles = []) (hs : b.statusErr = none) :
    (p.createBackup env b).calls = [GitCall.status]
    ∧ (p.createBackup env b).result = Except.ok 0
    ∧ (p.createBackup env b).plugin.state = PluginState.idle
    ∧ (p.createBackup env b).plugin.lastUpdate = p.lastUpdate
    ∧ (p.createBackup env b).plugin.settings = p.settings
    ∧ (p.createBackup env b).plugin.notices = p.notices
    ∧ (p.pushCommand env b).calls = [GitCall.status]
    ∧ (p.pushCommand env b).result = Except.ok 0
    ∧ (p.pushCommand env b).plugin.lastUpdate = p.lastUpdate
    ∧ (p.pushCommand env b).plugin.settings = p.settings := by
  by_cases hdp : p.settings.disablePopups <;>
    simp [Plugin.createBackup, Plugin.pushCommand, Plugin.getFilesChanged,
      Plugin.setState, Plugin.refreshStatusBar, Plugin.displayMessage, hs, h, hdp]

/-- Witness for C2 at a concrete plugin and an empty change set. -/
theorem c2_witness :
    (cexPlugin.createBackup cexEnv { okBehavior with changedFiles := [] }).calls
        = [GitCall.status]
    ∧ (cexPlugin.createBackup cexEnv { okBehavior with changedFiles := [] }).result
        = Except.ok 0
    ∧ (cexPlugin.createBackup cexEnv
        { okBehavior with changedFiles := [] }).plugin.state = PluginState.idle :=
  let h := c2_empty_changeset_no_calls cexPlugin cexEnv
    { okBehavior with changedFiles := [] } rfl rfl
  ⟨h.1, h.2.1, h.2.2.1⟩

/-- Counterexample to C3: a commit failure during `createBackup` is not
surfaced as a displayed error (no notice, no transient status-bar message) —
`git.commit` is invoked without an error callback — and the rejection
propagates to the caller with the cycle state left at `commit`, not reset to
`idle`. -/
theorem c3_counterexample :
    (cexPlugin.createBackup cexEnv commitFailBehavior).result = Except.error ()
    ∧ (cexPlugin.createBackup cexEnv commitFailBehavior).plugin.state
        = PluginState.commit
    ∧ (cexPlugin.createBackup cexEnv commitFailBehavior).plugin.notices = []
    ∧ (cexPlugin.createBackup cexEnv
        commitFailBehavior).plugin.statusBar.isDisplayingMessage = false :=
  ⟨rfl, rfl, rfl, rfl⟩

/-- Claim C3 as amended: a failure from `add`, `push` or `pull` is
displayed through its error callback (error notice shown, transient
status-bar message active), but the rejection still propagates to the
caller and the cycle state is left at the failing phase rather than reset
to `idle`; a commit failure propagates the same way while being displayed
nowhere (`git.commit` has no error callback).  In particular a push failure
after a successful commit aborts the cycle with the commit kept (called
exactly once, not rolled back), the push error displayed, and the state
left at `push`. -/
theorem c3_amended_failure_semantics (p : Plugin) (env : Env) (b : GitBehavior)
    (e : List Char) (hs : b.statusErr = none) (hne : b.changedFiles ≠ []) :
    (b.addErr = some e →
      (p.createBackup env b).result = Except.error ()
      ∧ (p.createBackup env b).plugin.state = PluginState.add
      ∧ ("Cannot add files: ".toList ++ e) ∈ (p.createBackup env b).plugin.notices
      ∧ (p.createBackup env b).plugin.statusBar.isDisplayingMessage = true
      ∧ ((p.createBackup env b).calls.countP GitCall.isCommit) = 0)
    ∧ (b.addErr = none → b.commitErr = some e →
      (p.createBackup env b).result = Except.error ()
      ∧ (p.createBackup env b).plugin.state = PluginState.commit
      ∧ (p.createBackup env b).plugin.notices = p.notices)
    ∧ (b.addErr = none → b.commitErr = none → b.pushErr = some e →
        p.settings.autoPush = true →
      (p.createBackup env b).result = Except.error ()
      ∧ (p.createBackup env b).plugin.state = PluginState.push
      ∧ ((p.createBackup env b).calls.countP GitCall.isCommit) = 1
      ∧ ("Push failed ".toList ++ e) ∈ (p.createBackup env b).plugin.notices
      ∧ (p.createBackup env b).plugin.statusBar.isDisplayingMessage = true)
    ∧ (b.pullErr = some e →
      (p.pullChangesFromRemote env b).result = Except.error ()
      ∧ (p.pullChangesFromRemote env b).plugin.state = PluginState.pull
      ∧ ("Pull failed ".toList ++ e) ∈ (p.pullChangesFromRemote env b).plugin.notices
      ∧ (p.pullChangesFromRemote env b).plugin.statusBar.isDisplayingMessage
          = true) := by
  have hlen : ¬ b.changedFiles.length = 0 := by
    simpa [List.length_eq_zero] using hne
  refine ⟨?_, ?_, ?_, ?_⟩
  · intro hadd
    simp [Plugin.createBackup, Plugin.getFilesChanged, Plugin.add,
      Plugin.displayError, Plugin.setState, Plugin.refreshStatusBar,
      StatusBar.displayMessage, hs, hadd, hlen,
      List.countP_append, List.countP_cons, GitCall.isCommit]
  · intro hadd hcomm
    by_cases hcs : containsSub numFilesPlaceholder p.settings.commitMessage <;>
      simp [Plugin.createBackup, Plugin.getFilesChanged, Plugin.add, Plugin.commit,
        Plugin.formatCommitMessage, Plugin.setState, Plugin.refreshStatusBar,
        hs, hadd, hcomm, hlen, hcs]
  · intro hadd hcomm hpush hap
    by_cases hcs : containsSub numFilesPlaceholder p.settings.commitMessage <;>
      by_cases hdp : p.settings.disablePopups <;>
        simp [Plugin.createBackup, Plugin.getFilesChanged, Plugin.add, Plugin.commit,
          Plugin.push, Plugin.formatCommitMessage, Plugin.displayMessage,
          Plugin.displayError, Plugin.setState, Plugin.refreshStatusBar,
          StatusBar.displayMessage, hs, hadd, hcomm, hpush, hlen, hcs, hap, hdp,
          List.countP_append, List.countP_cons, GitCall.isCommit]
  · intro hpull
    simp [Plugin.pullChangesFromRemote, Plugin.pull, Plugin.displayError,
      Plugin.setState, Plugin.refreshStatusBar, StatusBar.displayMessage, hpull]

/-- Witness for the amended C3 at a concrete plugin, with a failing add, a
failing push and a failing pull. -/
theorem c3_amended_witness :
    ((cexPlugin.createBackup cexEnv addFailBehavior).result = Except.error ()
      ∧ (cexPlugin.createBackup cexEnv addFailBehavior).plugin.state
          = PluginState.add
      ∧ ((cexPlugin.createBackup cexEnv addFailBehavior).calls.countP
          GitCall.isCommit) = 0)
    ∧ ((cexPlugin.createBackup cexEnv pushFailBehavior).result = Except.error ()
      ∧ (cexPlugin.createBackup cexEnv pushFailBehavior).plugin.state
          = PluginState.push
      ∧ ((cexPlugin.createBackup cexEnv pushFailBehavior).calls.countP
          GitCall.isCommit) = 1
      ∧ ("Push failed ".toList ++ "network error".toList)
          ∈ (cexPlugin.createBackup cexEnv pushFailBehavior).plugin.notices)
    ∧ ((cexPlugin.pullChangesFromRemote cexEnv pullFailBehavior).result
          = Except.error ()
      ∧ (cexPlugin.pullChangesFromRemote cexEnv pullFailBehavior).plugin.state
          = PluginState.pull) :=
  let ha := c3_amended_failure_semantics cexPlugin cexEnv addFailBehavior
    ("boom".toList) rfl (by decide)
  let hp := c3_amended_failure_semantics cexPlugin cexEnv pushFailBehavior
    ("network error".toList) rfl (by decide)
  let hl := c3_amended_failure_semantics cexPlugin cexEnv pullFailBehavior
    ("offline".toList) rfl (by decide)
  ⟨⟨(ha.1 rfl).1, (ha.1 rfl).2.1, (ha.1 rfl).2.2.2.2⟩,
   ⟨(hp.2.2.1 rfl rfl rfl rfl).1, (hp.2.2.1 rfl rfl rfl rfl).2.1,
    (hp.2.2.1 rfl rfl rfl rfl).2.2.1, (hp.2.2.1 rfl rfl rfl rfl).2.2.2.1⟩,
   ⟨(hl.2.2.2 rfl).1, (hl.2.2.2 rfl).2.1⟩⟩

/-- Counterexample to C4: `createBackup` is invoked with the cycle state at
`push` (a cycle in progress) and still starts a new cycle — it issues the
status query and the `add` call instead of observing the non-`idle` state
and refusing to start. -/
theorem c4_counterexample :
    ({ cexPlugin with state := PluginState.push } : Plugin).state ≠ PluginState.idle
    ∧ GitCall.add ∈ (({ cexPlugin with state := PluginState.push } : Plugin).createBackup
        cexEnv okBehavior).calls :=
  ⟨by decide, by decide⟩

/-- Claim C4 as amended: no initiation path observes the cycle state — the
behaviour of `createBackup` and `pullChangesFromRemote` is identical
whatever the current state, so a cycle is started even while another is in
progress. -/
theorem c4_amended_no_overlap_guard (p : Plugin) (env : Env) (b : GitBehavior)
    (s : PluginState) :
    (({ p with state := s } : Plugin).createBackup env b) = p.createBackup env b
    ∧ (({ p with state := s } : Plugin).pullChangesFromRemote env b)
        = p.pullChangesFromRemote env b :=
  ⟨rfl, rfl⟩

/-- Claim C8: after a transient message with a positive timeout is displayed
(no earlier reset pending), every phase-driven `displayState` refresh before
the timeout elapses is a no-op, and once the caller-specified duration has
elapsed the next refresh tick resumes phase-driven display. -/
theorem c8_transient_message_suppresses (sb : StatusBar) (now : Nat)
    (msg : List Char) (timeout : Int)
    (hpend : sb.pendingResets = []) (hpos : 0 < timeout) :
    (sb.displayMessage now msg timeout).isDisplayingMessage = true
    ∧ (∀ (t : Nat) (env : Env) (st : PluginState) (lu : Option Nat),
        t < now + timeout.toNat →
        ((sb.displayMessage now msg timeout).elapse t).displayState env st lu
          = (sb.displayMessage now msg timeout).elapse t)
    ∧ (∀ (t : Nat) (env : Env) (lu : Option Nat),
        now + timeout.toNat ≤ t →
        (((sb.displayMessage now msg timeout).elapse t).displayState env
            PluginState.status lu).text = "git: checking repo status..".toList) := by
  refine ⟨rfl, ?_, ?_⟩
  · intro t env st lu ht
    have hflag : ((sb.displayMessage now msg timeout).elapse t).isDisplayingMessage
        = true := by
      simp [StatusBar.displayMessage, StatusBar.elapse, hpend, hpos]
      omega
    simp [StatusBar.displayState, hflag]
  · intro t env lu ht
    have hflag : ((sb.displayMessage now msg timeout).elapse t).isDisplayingMessage
        = false := by
      simp [StatusBar.displayMessage, StatusBar.elapse, hpend, hpos]
      omega
    simp [StatusBar.displayState, hflag]

/-- Witness for C8 at a fresh status bar and a 1000 ms timeout. -/
theorem c8_witness :
    (((cexStatusBar.displayMessage 0 [] 1000).elapse 1000).displayState cexEnv
        PluginState.status none).text = "git: checking repo status..".toList :=
  (c8_transient_message_suppresses cexStatusBar 0 [] 1000 rfl (by decide)).2.2
    1000 cexEnv none (by decide)

/-- Counterexample to C10: a reset scheduled by an earlier message with a
positive timeout (4000 ms) is still pending when an error message with
timeout 0 is displayed; when that earlier timeout fires, the suppression
flag is cleared and phase-driven display resumes even though no later
positive-timeout message was ever displayed — so "remains a no-op
indefinitely" fails. -/
theorem c10_counterexample :
    (((cexStatusBar.displayMessage 0 ("m1".toList) 4000).displayMessage 1000
        ("err".toList) 0).elapse 4000).isDisplayingMessage = false
    ∧ ((((cexStatusBar.displayMessage 0 ("m1".toList) 4000).displayMessage 1000
        ("err".toList) 0).elapse 4000).displayState cexEnv PluginState.status
          none).text = "git: checking repo status..".toList :=
  ⟨rfl, rfl⟩

/-- Claim C10 as amended: when a message is displayed with a non-positive
timeout and no reset from an earlier message is still pending, the
suppression flag is set, no reset is scheduled, and every subsequent
phase-driven `displayState` call is a no-op however much time passes —
phase display resumes only when a message with a positive timeout is
displayed and that timeout elapses. -/
theorem c10_amended_indefinite_suppression (sb : StatusBar) (now : Nat)
    (msg : List Char) (timeout : Int)
    (hpend : sb.pendingResets = []) (hnp : timeout ≤ 0) :
    (sb.displayMessage now msg timeout).isDisplayingMessage = true
    ∧ (sb.displayMessage now msg timeout).pendingResets = []
    ∧ (∀ (t : Nat) (env : Env) (st : PluginState) (lu : Option Nat),
        ((sb.displayMessage now msg timeout).elapse t).displayState env st lu
          = (sb.displayMessage now msg timeout).elapse t)
    ∧ (∀ (now2 : Nat) (msg2 : List Char) (to2 : Int) (t : Nat),
        0 < to2 → now2 + to2.toNat ≤ t →
        (((sb.displayMessage now msg timeout).displayMessage now2 msg2
            to2).elapse t).isDisplayingMessage = false) := by
  have hnpos : ¬ 0 < timeout := by omega
  refine ⟨rfl, ?_, ?_, ?_⟩
  · simp [StatusBar.displayMessage, hpend, hnpos]
  · intro t env st lu
    have hflag : ((sb.displayMessage now msg timeout).elapse t).isDisplayingMessage
        = true := by
      simp [StatusBar.displayMessage, StatusBar.elapse, hpend, hnpos]
    simp [StatusBar.displayState, hflag]
  · intro now2 msg2 to2 t hto ht
    simp [StatusBar.displayMessage, StatusBar.elapse, hpend, hnpos, hto]
    omega

/-- Witness for the amended C10: an error displayed with the default
timeout 0 on a fresh status bar suppresses a later refresh. -/
theorem c10_amended_witness :
    ((cexStatusBar.displayMessage 5 ("err".toList) 0).elapse 99999).displayState
        cexEnv PluginState.status none
      = (cexStatusBar.displayMessage 5 ("err".toList) 0).elapse 99999 :=
  (c10_amended_indefinite_suppression cexStatusBar 5 ("err".toList) 0 rfl
    (by decide)).2.2.1 99999 cexEnv PluginState.status none
